import Mathlib

/-
Verification of the subtp change-data-capture module (src/subtp/__init__.py).

The module listens to the ORM lifecycle signals (post_init, post_save,
post_delete) for registered model classes, keeps a per-instance snapshot of
attribute state in a dictionary keyed by the instance memory address, diffs
the snapshot against the current attributes on save, and publishes
create/update/delete events to a list of callbacks.

The shallow embedding below models:
  - Python dictionaries as insertion-ordered association lists (the operations
    the source uses: lookup via get / [], item assignment, del, key membership,
    truthiness);
  - the module-level state (_registered_models, _callbacks, _snapshots) as
    explicit arguments and results;
  - callback invocation as data: publish returns the list of invocations it
    performs, in order, each recording the callback and its arguments;
  - a raised exception as an Option String component of the result (none when
    the call returns normally), with the state and the invocations performed
    up to the raise point.
-/

namespace Subtp

/-- A Python dict, modelled as an insertion-ordered association list.  The
Python runtime keeps keys unique; where a proof needs that invariant it is
taken as a Nodup hypothesis on the keys. -/
abbrev Dict (K A : Type) := List (K × A)

/-- Lookup of a key, as dict.get(key) / dict[key] (first matching entry). -/
def dictLookup [DecidableEq K] : Dict K A → K → Option A
  | [], _ => none
  | (k, a) :: rest, key => if k = key then some a else dictLookup rest key

/-- Item assignment d[key] = a: replaces the entry in place when the key is
present, appends at the end otherwise (Python insertion-order semantics). -/
def dictSet [DecidableEq K] : Dict K A → K → A → Dict K A
  | [], key, a => [(key, a)]
  | (k, b) :: rest, key, a =>
      if k = key then (key, a) :: rest else (k, b) :: dictSet rest key a

/-- Deletion del d[key]: removes the first entry with the key. -/
def dictDel [DecidableEq K] : Dict K A → K → Dict K A
  | [], _ => []
  | (k, b) :: rest, key => if k = key then rest else (k, b) :: dictDel rest key

/-- The keys of a dict, in order. -/
def dictKeys : Dict K A → List K := List.map Prod.fst

/-- A live model instance as the hooks see it: its __dict__ contents, the
field-name whitelist from instance._meta.fields, its primary key (None until
the storage layer assigns one), and its memory address id(instance). -/
structure Instance (V : Type) where
  dict : List (String × V)
  fields : List String
  pk : Option V
  addr : Nat

/-- get_attributes(instance): the items of instance.__dict__ whose key is in
the field-name whitelist, in dict order. -/
def get_attributes (inst : Instance V) : Dict String V :=
  inst.dict.filter (fun kv => decide (kv.1 ∈ inst.fields))

/-- The payload dict built by publish: always carries the id entry; the data
entry is present exactly when publish put it there. -/
structure Payload (V : Type) where
  id : Option V
  data : Option (Dict String V)
deriving DecidableEq

/-- One callback invocation performed by publish, recording the callback and
the keyword arguments model_class, event, payload it was called with. -/
structure Inv (M C V : Type) where
  cb : C
  model_class : M
  event : String
  payload : Payload V
deriving DecidableEq

/-- register(model_class): appends to _registered_models. -/
def register (registered : List M) (model_class : M) : List M :=
  registered ++ [model_class]

/-- unregister(model_class): _registered_models.remove(model_class), which
removes the first occurrence and raises ValueError when absent. -/
def unregister [DecidableEq M] : List M → M → Except String (List M)
  | [], _ => .error ("ValueError: list.remove(x): x not in list")
  | m :: rest, model_class =>
      if m = model_class then .ok rest
      else
        match unregister rest model_class with
        | .error e => .error e
        | .ok l => .ok (m :: l)

/-- add_callback(callback): appends to _callbacks. -/
def add_callback (callbacks : List C) (callback : C) : List C :=
  callbacks ++ [callback]

/-- publish(model_class, event, pk, attributes=None): builds the payload dict
with the id entry, adds the data entry only when attributes is truthy (not
None and not the empty dict), then calls every callback in _callbacks order
with the same keyword arguments.  The returned list records the invocations
in the order they happen. -/
def publish (callbacks : List C) (model_class : M) (event : String)
    (pk : Option V) (attributes : Option (Dict String V)) : List (Inv M C V) :=
  let payload : Payload V :=
    { id := pk
      data :=
        match attributes with
        | some d => if d.isEmpty then none else some d
        | none => none }
  callbacks.map (fun cb =>
    { cb := cb, model_class := model_class, event := event, payload := payload })

/-- post_init_callback(sender, instance): for registered senders, stores the
whitelisted attribute snapshot under id(instance); for unregistered senders it
returns at once.  Returns the new _snapshots state. -/
def post_init_callback [DecidableEq M] [DecidableEq V] (registered : List M)
    (snapshots : Dict Nat (Dict String V)) (sender : M) (inst : Instance V) :
    Dict Nat (Dict String V) :=
  if sender ∈ registered then
    dictSet snapshots inst.addr (get_attributes inst)
  else snapshots

/-- The destructor closure registered by post_init_callback through a weak
reference: when id(instance) is a key of _snapshots it deletes the entry,
otherwise it does nothing. -/
def destructor [DecidableEq V] (snapshots : Dict Nat (Dict String V))
    (addr : Nat) : Dict Nat (Dict String V) :=
  if addr ∈ dictKeys snapshots then dictDel snapshots addr else snapshots

/-- The delta dict comprehension in post_save_callback: iterates the keys of
attributes in order, keeps a key when its current value differs from
previous[key], and raises KeyError when previous lacks the key. -/
def delta [DecidableEq V] : Dict String V → Dict String V →
    Except String (Dict String V)
  | [], _ => .ok []
  | (key, v) :: rest, previous =>
      match dictLookup previous key with
      | none => .error ("KeyError: key missing from previous snapshot")
      | some pv =>
          match delta rest previous with
          | .error e => .error e
          | .ok d => .ok (if v = pv then d else (key, v) :: d)

/-- post_save_callback(sender, instance, created): for registered senders,
publishes a create event with the full whitelisted attributes when created is
set; otherwise reads the previous snapshot, raises KeyError when it is falsy
(absent or the empty dict), computes the delta (which itself may raise
KeyError), and publishes an update event with the delta.  On the paths that
do not raise it ends by storing the current attributes as the new snapshot.
The result is the final _snapshots state, the invocations performed, and the
raised error when one occurred. -/
def post_save_callback [DecidableEq M] [DecidableEq V] (registered : List M)
    (callbacks : List C) (snapshots : Dict Nat (Dict String V)) (sender : M)
    (inst : Instance V) (created : Bool) :
    Dict Nat (Dict String V) × List (Inv M C V) × Option String :=
  if sender ∈ registered then
    let attributes := get_attributes inst
    if created then
      (dictSet snapshots inst.addr attributes,
       publish callbacks sender ("create") inst.pk (some attributes), none)
    else
      match dictLookup snapshots inst.addr with
      | none => (snapshots, [], some ("KeyError: previous snapshot not found"))
      | some previous =>
          if previous.isEmpty then
            (snapshots, [], some ("KeyError: previous snapshot not found"))
          else
            match delta attributes previous with
            | .error e => (snapshots, [], some e)
            | .ok d =>
                (dictSet snapshots inst.addr attributes,
                 publish callbacks sender ("update") inst.pk (some d), none)
  else (snapshots, [], none)

/-- post_delete_callback(sender, instance): for registered senders, publishes
a delete event with no attributes argument; a no-op otherwise. -/
def post_delete_callback [DecidableEq M] [DecidableEq V] (registered : List M)
    (callbacks : List C) (sender : M) (inst : Instance V) : List (Inv M C V) :=
  if sender ∈ registered then publish callbacks sender ("delete") inst.pk none
  else []

/-! Helper lemmas about the dictionary model and the delta comprehension. -/

theorem dictLookup_dictSet_self [DecidableEq K] (d : Dict K A) (key : K) (a : A) :
    dictLookup (dictSet d key a) key = some a := by
  induction d with
  | nil => simp [dictSet, dictLookup]
  | cons kb rest ih =>
      obtain ⟨k, b⟩ := kb
      by_cases h : k = key
      · simp [dictSet, h, dictLookup]
      · simp [dictSet, h, dictLookup, ih]

theorem dictLookup_eq_none_iff [DecidableEq K] (d : Dict K A) (key : K) :
    dictLookup d key = none ↔ key ∉ dictKeys d := by
  induction d with
  | nil => simp [dictLookup, dictKeys]
  | cons kb rest ih =>
      obtain ⟨k, b⟩ := kb
      by_cases h : k = key
      · simp [dictLookup, h, dictKeys]
      · rw [show dictLookup ((k, b) :: rest) key = dictLookup rest key from by
            simp [dictLookup, h],
          show dictKeys ((k, b) :: rest) = k :: dictKeys rest from rfl, ih]
        constructor
        · intro hmem hcons
          rcases List.mem_cons.mp hcons with hk | hk
          · exact h hk.symm
          · exact hmem hk
        · intro hmem hk
          exact hmem (List.mem_cons_of_mem _ hk)

theorem not_mem_keys_dictDel [DecidableEq K] (d : Dict K A) (key : K)
    (hnd : (dictKeys d).Nodup) : key ∉ dictKeys (dictDel d key) := by
  induction d with
  | nil => simp [dictDel, dictKeys]
  | cons kb rest ih =>
      obtain ⟨k, b⟩ := kb
      rw [show dictKeys ((k, b) :: rest) = k :: dictKeys rest from rfl,
        List.nodup_cons] at hnd
      by_cases h : k = key
      · subst h
        simp only [dictDel, if_pos rfl]
        exact hnd.1
      · simp only [dictDel, if_neg h]
        rw [show dictKeys ((k, b) :: dictDel rest key) =
          k :: dictKeys (dictDel rest key) from rfl]
        intro hmem
        rcases List.mem_cons.mp hmem with hk | hk
        · exact h hk.symm
        · exact ih hnd.2 hk

theorem delta_ok_of_cover [DecidableEq V] (cur previous : Dict String V)
    (hcov : ∀ p ∈ cur, (dictLookup previous p.1).isSome) :
    ∃ d, delta cur previous = .ok d := by
  induction cur with
  | nil => exact ⟨[], rfl⟩
  | cons kv rest ih =>
      obtain ⟨key, v⟩ := kv
      obtain ⟨pv, hpv⟩ := Option.isSome_iff_exists.mp (hcov (key, v) (by simp))
      obtain ⟨d, hd⟩ := ih (fun p hp => hcov p (by simp [hp]))
      exact ⟨if v = pv then d else (key, v) :: d, by simp [delta, hpv, hd]⟩

theorem delta_error_of_missing [DecidableEq V] (cur previous : Dict String V)
    (p : String × V) (hp : p ∈ cur) (hmiss : dictLookup previous p.1 = none) :
    ∃ e, delta cur previous = .error e := by
  induction cur with
  | nil => simp at hp
  | cons kv rest ih =>
      obtain ⟨key, v⟩ := kv
      rcases List.mem_cons.mp hp with h | h
      · subst h
        exact ⟨"KeyError: key missing from previous snapshot",
          by simp [delta, hmiss]⟩
      · cases hl : dictLookup previous key with
        | none =>
            exact ⟨"KeyError: key missing from previous snapshot",
              by simp [delta, hl]⟩
        | some pv =>
            obtain ⟨e, he⟩ := ih h
            exact ⟨e, by simp [delta, hl, he]⟩

theorem delta_ok_lookup [DecidableEq V] (cur previous : Dict String V)
    (hnd : (dictKeys cur).Nodup)
    (hcov : ∀ p ∈ cur, (dictLookup previous p.1).isSome) :
    ∃ d, delta cur previous = .ok d ∧
      ∀ key v, dictLookup d key = some v ↔
        dictLookup cur key = some v ∧ dictLookup previous key ≠ some v := by
  induction cur with
  | nil =>
      refine ⟨[], rfl, ?_⟩
      intro key v
      simp [dictLookup]
  | cons kv rest ih =>
      obtain ⟨key0, v0⟩ := kv
      obtain ⟨pv, hpv⟩ := Option.isSome_iff_exists.mp (hcov (key0, v0) (by simp))
      rw [show dictKeys ((key0, v0) :: rest) = key0 :: dictKeys rest from rfl,
        List.nodup_cons] at hnd
      obtain ⟨d, hd, hchar⟩ := ih hnd.2 (fun p hp => hcov p (by simp [hp]))
      have hrest : dictLookup rest key0 = none :=
        (dictLookup_eq_none_iff _ _).mpr hnd.1
      have hdnone : dictLookup d key0 = none := by
        cases hdl : dictLookup d key0 with
        | none => rfl
        | some v =>
            have := ((hchar key0 v).mp hdl).1
            rw [hrest] at this
            exact absurd this (by simp)
      have hpv' : dictLookup previous key0 = some pv := hpv
      refine ⟨if v0 = pv then d else (key0, v0) :: d,
        by simp [delta, hpv, hd], ?_⟩
      intro key v
      by_cases hk : key0 = key
      · subst hk
        have hhead : dictLookup ((key0, v0) :: rest) key0 = some v0 := by
          simp [dictLookup]
        by_cases hv : v0 = pv
        · rw [if_pos hv, hdnone, hhead, hpv']
          constructor
          · intro h
            exact absurd h (by simp)
          · rintro ⟨h1, h2⟩
            rw [Option.some_inj] at h1
            exact absurd (by rw [← hv, h1]) h2
        · have hL : dictLookup ((key0, v0) :: d) key0 = some v0 := by
            simp [dictLookup]
          rw [if_neg hv, hL, hhead, hpv']
          constructor
          · intro h
            refine ⟨h, fun hc => hv ?_⟩
            rw [Option.some_inj] at h hc
            exact h.trans hc.symm
          · rintro ⟨h1, _⟩
            exact h1
      · have hL1 : ∀ (l : Dict String V) (w : V),
            dictLookup ((key0, w) :: l) key = dictLookup l key := by
          intro l w
          simp [dictLookup, hk]
        by_cases hv : v0 = pv
        · rw [if_pos hv, hchar key v, ← hL1 rest v0]
        · rw [if_neg hv, hL1 d v0, hchar key v, ← hL1 rest v0]

theorem delta_ok_cover [DecidableEq V] (cur previous : Dict String V)
    (d : Dict String V) (hd : delta cur previous = .ok d) :
    ∀ p ∈ cur, (dictLookup previous p.1).isSome = true := by
  intro p hp
  cases hm : dictLookup previous p.1 with
  | some pv => rfl
  | none =>
      obtain ⟨e, he⟩ := delta_error_of_missing cur previous p hp hm
      rw [hd] at he
      exact Except.noConfusion he

theorem delta_eq_nil [DecidableEq V] (cur previous : Dict String V)
    (hsame : ∀ p ∈ cur, dictLookup previous p.1 = some p.2) :
    delta cur previous = .ok [] := by
  induction cur with
  | nil => rfl
  | cons kv rest ih =>
      obtain ⟨key, v⟩ := kv
      have h1 := hsame (key, v) (by simp)
      have h2 := ih (fun p hp => hsame p (by simp [hp]))
      simp [delta, h1, h2]

/-! Branch lemmas unfolding post_save_callback along its control flow. -/

theorem post_save_notreg [DecidableEq M] [DecidableEq V] (registered : List M)
    (callbacks : List C) (snapshots : Dict Nat (Dict String V)) (sender : M)
    (inst : Instance V) (created : Bool) (hnr : sender ∉ registered) :
    post_save_callback registered callbacks snapshots sender inst created =
      (snapshots, [], none) := by
  simp [post_save_callback, hnr]

theorem post_save_reg_created [DecidableEq M] [DecidableEq V]
    (registered : List M) (callbacks : List C)
    (snapshots : Dict Nat (Dict String V)) (sender : M) (inst : Instance V)
    (hreg : sender ∈ registered) :
    post_save_callback registered callbacks snapshots sender inst true =
      (dictSet snapshots inst.addr (get_attributes inst),
       publish callbacks sender ("create") inst.pk (some (get_attributes inst)),
       none) := by
  simp [post_save_callback, hreg]

theorem post_save_reg_notcreated_none [DecidableEq M] [DecidableEq V]
    (registered : List M) (callbacks : List C)
    (snapshots : Dict Nat (Dict String V)) (sender : M) (inst : Instance V)
    (hreg : sender ∈ registered)
    (hl : dictLookup snapshots inst.addr = none) :
    post_save_callback registered callbacks snapshots sender inst false =
      (snapshots, [], some ("KeyError: previous snapshot not found")) := by
  simp [post_save_callback, hreg, hl]

theorem post_save_reg_notcreated_some [DecidableEq M] [DecidableEq V]
    (registered : List M) (callbacks : List C)
    (snapshots : Dict Nat (Dict String V)) (sender : M) (inst : Instance V)
    (previous : Dict String V) (hreg : sender ∈ registered)
    (hl : dictLookup snapshots inst.addr = some previous) :
    post_save_callback registered callbacks snapshots sender inst false =
      (if previous.isEmpty then
        (snapshots, [], some ("KeyError: previous snapshot not found"))
      else
        match delta (get_attributes inst) previous with
        | .error e => (snapshots, [], some e)
        | .ok d =>
            (dictSet snapshots inst.addr (get_attributes inst),
             publish callbacks sender ("update") inst.pk (some d), none)) := by
  simp [post_save_callback, hreg, hl]

/-! Claim theorems. -/

/-- C6: publish invokes every registered callback exactly once, in the order
the callbacks appear in the list (registration order, since add_callback
appends), each with the same model_class, event and payload; the payload
always carries the id entry equal to the given pk, and carries the data entry
if and only if the attributes argument is a non-empty dict, in which case the
data entry equals the attributes. -/
theorem publish_uniform_delivery [DecidableEq V] (callbacks : List C)
    (cb0 : C) (model_class : M) (event : String) (pk : Option V)
    (attributes : Option (Dict String V)) :
    ((publish callbacks model_class event pk attributes).map Inv.cb =
      callbacks) ∧
    (publish (add_callback callbacks cb0) model_class event pk attributes =
      publish callbacks model_class event pk attributes ++
        publish [cb0] model_class event pk attributes) ∧
    ∀ inv ∈ publish callbacks model_class event pk attributes,
      inv.model_class = model_class ∧ inv.event = event ∧
      inv.payload.id = pk ∧
      (inv.payload.data ≠ none ↔ ∃ l, attributes = some l ∧ l ≠ []) ∧
      (∀ l, attributes = some l → l ≠ [] → inv.payload.data = some l) := by
  refine ⟨?_, ?_, ?_⟩
  · induction callbacks with
    | nil => rfl
    | cons c cs ih =>
        simp only [publish, List.map_cons] at ih ⊢
        rw [ih]
  · simp [publish, add_callback]
  · intro inv hinv
    simp only [publish, List.mem_map] at hinv
    obtain ⟨cb, hcb, rfl⟩ := hinv
    refine ⟨rfl, rfl, rfl, ?_, ?_⟩
    · cases attributes with
      | none => simp
      | some l =>
          cases l with
          | nil => simp
          | cons a t => simp
    · intro l hl hlne
      subst hl
      cases l with
      | nil => exact absurd rfl hlne
      | cons a t => simp

/-- Witness for C6 at concrete callbacks and attributes. -/
theorem publish_uniform_delivery_witness :
    ((publish ([3, 4] : List Nat) (1 : Nat) ("create") (some (7 : Int))
        (some [("x", (0 : Int))])).map Inv.cb = [3, 4]) ∧
    ({ cb := 3, model_class := 1, event := "create",
       payload := { id := some 7, data := some [("x", 0)] } } :
        Inv Nat Nat Int).payload.id = some 7 :=
  ⟨(publish_uniform_delivery [3, 4] 9 1 ("create") (some 7)
      (some [("x", 0)])).1,
   ((publish_uniform_delivery [3, 4] 9 1 ("create") (some 7)
      (some [("x", 0)])).2.2 _ (by decide)).2.2.1⟩

/-- C7: for a model type not in the registered set, each of the three
lifecycle hooks is a pure no-op: the construct hook leaves the snapshot store
unchanged, the persist hook leaves the store unchanged, performs no
invocation and raises no error, and the delete hook performs no
invocation. -/
theorem unregistered_hooks_noop [DecidableEq M] [DecidableEq V]
    (registered : List M) (callbacks : List C)
    (snapshots : Dict Nat (Dict String V)) (sender : M) (inst : Instance V)
    (created : Bool) (hnr : sender ∉ registered) :
    post_init_callback registered snapshots sender inst = snapshots ∧
    post_save_callback registered callbacks snapshots sender inst created =
      (snapshots, [], none) ∧
    post_delete_callback registered callbacks sender inst =
      ([] : List (Inv M C V)) := by
  refine ⟨?_, ?_, ?_⟩
  · simp [post_init_callback, hnr]
  · simp [post_save_callback, hnr]
  · simp [post_delete_callback, hnr]

/-- Witness for C7 at a concrete unregistered sender. -/
theorem unregistered_hooks_noop_witness :
    post_init_callback ([] : List Nat) [(3, [("a", (1 : Int))])] 0
        ⟨[("a", 2)], ["a"], some 1, 3⟩ = [(3, [("a", 1)])] ∧
    post_save_callback ([] : List Nat) ([5] : List Nat)
        [(3, [("a", (1 : Int))])] 0 ⟨[("a", 2)], ["a"], some 1, 3⟩ true =
      ([(3, [("a", 1)])], [], none) ∧
    post_delete_callback ([] : List Nat) ([5] : List Nat) 0
        (⟨[("a", (2 : Int))], ["a"], some 1, 3⟩ : Instance Int) = [] :=
  unregistered_hooks_noop [] [5] [(3, [("a", 1)])] 0
    ⟨[("a", 2)], ["a"], some 1, 3⟩ true (by decide)

/-- C8: the code raises on unregistering a non-member: unregister uses
list.remove, which raises ValueError when the model class is absent, so it is
not the claimed raise-free remove-if-present no-op. -/
theorem unregister_nonmember_raises :
    unregister ([1] : List Nat) 0 =
      .error ("ValueError: list.remove(x): x not in list") := by
  rfl

/-- C9: the reclamation destructor is defensive and idempotent: on a store
with unique keys (the dict invariant) it leaves the store unchanged when the
handle is absent, and running it twice for the same handle has the same
effect on the store as running it once. -/
theorem destructor_defensive_idempotent [DecidableEq V]
    (snapshots : Dict Nat (Dict String V)) (addr : Nat)
    (hnd : (dictKeys snapshots).Nodup) :
    (dictLookup snapshots addr = none →
      destructor snapshots addr = snapshots) ∧
    destructor (destructor snapshots addr) addr =
      destructor snapshots addr := by
  constructor
  · intro habs
    have h1 : addr ∉ dictKeys snapshots := (dictLookup_eq_none_iff _ _).mp habs
    simp [destructor, h1]
  · by_cases hmem : addr ∈ dictKeys snapshots
    · have h1 : destructor snapshots addr = dictDel snapshots addr := by
        simp [destructor, hmem]
      rw [h1]
      have h2 : addr ∉ dictKeys (dictDel snapshots addr) :=
        not_mem_keys_dictDel snapshots addr hnd
      simp [destructor, h2]
    · simp [destructor, hmem]

/-- Witness for C9 on a concrete store: a release of an absent handle leaves
the store unchanged, and the double release equals the single one. -/
theorem destructor_defensive_idempotent_witness :
    destructor [(1, [("a", (0 : Int))])] 2 = [(1, [("a", 0)])] ∧
    destructor (destructor [(1, [("a", (0 : Int))])] 1) 1 =
      destructor [(1, [("a", 0)])] 1 :=
  ⟨(destructor_defensive_idempotent [(1, [("a", 0)])] 2 (by decide)).1
      (by decide),
   (destructor_defensive_idempotent [(1, [("a", 0)])] 1 (by decide)).2⟩

/-- C10: whenever the persist hook raises, the snapshot store component of
the result is exactly the pre-call store (in particular the current
attributes were not stored) and no callback invocation was performed, so a
retry observes the same pre-call state. -/
theorem post_save_error_atomic [DecidableEq M] [DecidableEq V]
    (registered : List M) (callbacks : List C)
    (snapshots : Dict Nat (Dict String V)) (sender : M) (inst : Instance V)
    (created : Bool)
    (herr : (post_save_callback registered callbacks snapshots sender inst
      created).2.2.isSome = true) :
    (post_save_callback registered callbacks snapshots sender inst
      created).1 = snapshots ∧
    (post_save_callback registered callbacks snapshots sender inst
      created).2.1 = [] := by
  by_cases hreg : sender ∈ registered
  · cases created with
    | true =>
        rw [post_save_reg_created registered callbacks snapshots sender inst
          hreg] at herr
        simp at herr
    | false =>
        cases hl : dictLookup snapshots inst.addr with
        | none =>
            rw [post_save_reg_notcreated_none registered callbacks snapshots
              sender inst hreg hl]
            exact ⟨rfl, rfl⟩
        | some previous =>
            rw [post_save_reg_notcreated_some registered callbacks snapshots
              sender inst previous hreg hl] at herr ⊢
            by_cases he : previous.isEmpty
            · rw [if_pos he]
              exact ⟨rfl, rfl⟩
            · rw [if_neg he] at herr ⊢
              cases hd : delta (get_attributes inst) previous with
              | error e =>
                  simp [hd]
              | ok d =>
                  simp only [hd] at herr
                  simp at herr
  · rw [post_save_notreg registered callbacks snapshots sender inst created
      hreg] at herr
    simp at herr

/-- C1 counterexample: a registered instance with a stored snapshot (the
empty dict) for which a non-created persist performs no invocation at all
(it raises), against the claim that an update event carrying the changed
keys is published whenever a stored snapshot exists. -/
theorem post_save_update_delta_counterexample :
    dictLookup [(7, ([] : Dict String Int))] 7 = some [] ∧
    (post_save_callback [0] ([9] : List Nat) [(7, ([] : Dict String Int))] 0
        ⟨[("a", 1)], ["a"], some 1, 7⟩ false).2.1 = [] ∧
    (post_save_callback [0] ([9] : List Nat) [(7, ([] : Dict String Int))] 0
        ⟨[("a", 1)], ["a"], some 1, 7⟩ false).2.2.isSome = true := by
  decide

/-- C1 (amended): for a registered instance whose stored snapshot is
non-empty and on which the delta comprehension succeeds (every current
attribute key present in the snapshot), with the current attribute keys
unique as the Python dict keeps them, a non-created persist publishes an
update invocation to every callback carrying exactly the delta: a key maps
to v in the delta iff it maps to v in the current attributes and not to v in
the stored snapshot — no extra keys and no missing keys. -/
theorem post_save_update_delta_exact [DecidableEq M] [DecidableEq V]
    (registered : List M) (callbacks : List C)
    (snapshots : Dict Nat (Dict String V)) (sender : M) (inst : Instance V)
    (previous d : Dict String V) (hreg : sender ∈ registered)
    (hprev : dictLookup snapshots inst.addr = some previous)
    (hne : previous ≠ [])
    (hnd : (dictKeys (get_attributes inst)).Nodup)
    (hd : delta (get_attributes inst) previous = .ok d) :
    (post_save_callback registered callbacks snapshots sender inst false =
      (dictSet snapshots inst.addr (get_attributes inst),
       publish callbacks sender ("update") inst.pk (some d), none)) ∧
    ∀ key v, dictLookup d key = some v ↔
      (dictLookup (get_attributes inst) key = some v ∧
       dictLookup previous key ≠ some v) := by
  have hcov := delta_ok_cover (get_attributes inst) previous d hd
  obtain ⟨d2, hd2, hchar⟩ :=
    delta_ok_lookup (get_attributes inst) previous hnd hcov
  rw [hd] at hd2
  injection hd2 with hdd
  subst hdd
  constructor
  · rw [post_save_reg_notcreated_some registered callbacks snapshots sender
      inst previous hreg hprev]
    have he : previous.isEmpty = false := by
      cases previous with
      | nil => exact absurd rfl hne
      | cons a l => rfl
    rw [if_neg (by simp [he])]
    simp only [hd]
  · exact hchar

/-- Witness for C1 at a concrete changed instance: one attribute changed,
one unchanged, and the delta carries exactly the changed one. -/
theorem post_save_update_delta_exact_witness :
    (post_save_callback [0] ([9] : List Nat)
        [(7, [("a", (1 : Int)), ("b", 2)])] 0
        ⟨[("a", 1), ("b", 3)], ["a", "b"], some 1, 7⟩ false =
      (dictSet [(7, [("a", 1), ("b", 2)])] 7
        (get_attributes ⟨[("a", 1), ("b", 3)], ["a", "b"], some 1, 7⟩),
       publish [9] 0 ("update") (some 1) (some [("b", 3)]), none)) ∧
    (dictLookup [("b", (3 : Int))] ("b") = some 3 ↔
      (dictLookup (get_attributes
          (⟨[("a", 1), ("b", 3)], ["a", "b"], some 1, 7⟩ : Instance Int))
          ("b") = some 3 ∧
       dictLookup [("a", (1 : Int)), ("b", 2)] ("b") ≠ some 3)) :=
  ⟨(post_save_update_delta_exact [0] [9] [(7, [("a", 1), ("b", 2)])] 0
      ⟨[("a", 1), ("b", 3)], ["a", "b"], some 1, 7⟩ [("a", 1), ("b", 2)]
      [("b", 3)] (by decide) (by decide) (by decide) (by decide)
      (by rfl)).1,
   (post_save_update_delta_exact [0] [9] [(7, [("a", 1), ("b", 2)])] 0
      ⟨[("a", 1), ("b", 3)], ["a", "b"], some 1, 7⟩ [("a", 1), ("b", 2)]
      [("b", 3)] (by decide) (by decide) (by decide) (by decide)
      (by rfl)).2 ("b") 3⟩

/-- C2 counterexample: a stored snapshot exists for the instance handle (the
empty dict), yet the non-created persist raises, against the claim that it
raises exactly when no prior snapshot exists. -/
theorem post_save_raise_iff_counterexample :
    dictLookup [(5, ([] : Dict String Int))] 5 = some [] ∧
    (post_save_callback [0] ([] : List Nat) [(5, ([] : Dict String Int))] 0
        ⟨[], [], none, 5⟩ false).2.2.isSome = true := by
  decide

/-- C2 (amended): for a registered sender a non-created persist raises iff
there is no stored snapshot for the instance handle that is non-empty and
contains every current attribute key (absent snapshot, falsy empty snapshot,
or a key missing from it); when it raises, no invocation is performed. -/
theorem post_save_raise_iff [DecidableEq M] [DecidableEq V]
    (registered : List M) (callbacks : List C)
    (snapshots : Dict Nat (Dict String V)) (sender : M) (inst : Instance V)
    (hreg : sender ∈ registered) :
    ((post_save_callback registered callbacks snapshots sender inst
        false).2.2.isSome = true ↔
      ¬ ∃ previous, dictLookup snapshots inst.addr = some previous ∧
        previous ≠ [] ∧
        ∀ p ∈ get_attributes inst, (dictLookup previous p.1).isSome = true) ∧
    ((post_save_callback registered callbacks snapshots sender inst
        false).2.2.isSome = true →
      (post_save_callback registered callbacks snapshots sender inst
        false).2.1 = []) := by
  cases hl : dictLookup snapshots inst.addr with
  | none =>
      rw [post_save_reg_notcreated_none registered callbacks snapshots sender
        inst hreg hl]
      refine ⟨⟨fun _ => ?_, fun _ => rfl⟩, fun _ => rfl⟩
      rintro ⟨previous, hp, -, -⟩
      exact Option.noConfusion hp
  | some previous =>
      rw [post_save_reg_notcreated_some registered callbacks snapshots sender
        inst previous hreg hl]
      by_cases he : previous.isEmpty
      · have hpnil : previous = [] := by
          cases previous with
          | nil => rfl
          | cons a l => simp at he
        rw [if_pos he]
        refine ⟨⟨fun _ => ?_, fun _ => rfl⟩, fun _ => rfl⟩
        rintro ⟨prev2, hp2, hne2, -⟩
        injection hp2 with hpe
        exact hne2 (by rw [← hpe]; exact hpnil)
      · rw [if_neg he]
        have hne2 : previous ≠ [] := by
          intro hcon
          rw [hcon] at he
          exact he rfl
        cases hd : delta (get_attributes inst) previous with
        | error e =>
            refine ⟨⟨fun _ => ?_, fun _ => rfl⟩, fun _ => rfl⟩
            rintro ⟨prev2, hp2, -, hcov2⟩
            injection hp2 with hpe
            subst hpe
            obtain ⟨d, hdo⟩ :=
              delta_ok_of_cover (get_attributes inst) previous hcov2
            rw [hd] at hdo
            exact Except.noConfusion hdo
        | ok d =>
            constructor
            · constructor
              · intro h
                simp at h
              · intro hcon
                exact absurd
                  ⟨previous, rfl, hne2, delta_ok_cover _ _ d hd⟩ hcon
            · intro h
              simp at h

/-- Witness for C2: a persist with no stored snapshot raises and performs no
invocation. -/
theorem post_save_raise_iff_witness :
    (post_save_callback [2] ([8] : List Nat)
      ([] : Dict Nat (Dict String Int)) 2 ⟨[("b", 1)], ["b"], some 1, 3⟩
      false).2.1 = [] :=
  (post_save_raise_iff [2] [8] [] 2 ⟨[("b", 1)], ["b"], some 1, 3⟩
    (by decide)).2 (by decide)

/-- C3 counterexample: for the empty attribute set, construct-then-create
publishes one create invocation per callback whose payload carries no data
entry at all, not a data mapping equal to the (empty) full attribute set. -/
theorem post_save_create_counterexample :
    get_attributes (⟨[], ["a"], some 1, 3⟩ : Instance Int) = [] ∧
    (post_save_callback [0] ([6] : List Nat)
        (post_init_callback [0] ([] : Dict Nat (Dict String Int)) 0
          ⟨[], ["a"], some 1, 3⟩) 0 ⟨[], ["a"], some 1, 3⟩ true).2.1 =
      [{ cb := 6, model_class := 0, event := "create",
         payload := { id := some 1, data := none } }] := by
  decide

/-- C3 (amended): constructing then persisting as newly created for a
registered sender publishes exactly one create invocation per callback,
each carrying payload data equal to the full whitelist-restricted attribute
set when that set is non-empty (publish omits the data entry when the set is
empty). -/
theorem post_save_create_full_data [DecidableEq M] [DecidableEq V]
    (registered : List M) (callbacks : List C)
    (snapshots : Dict Nat (Dict String V)) (sender : M) (inst : Instance V)
    (hreg : sender ∈ registered) (hne : get_attributes inst ≠ []) :
    post_save_callback registered callbacks
        (post_init_callback registered snapshots sender inst) sender inst
        true =
      (dictSet (post_init_callback registered snapshots sender inst)
        inst.addr (get_attributes inst),
       callbacks.map (fun cb =>
         { cb := cb, model_class := sender, event := "create",
           payload := { id := inst.pk,
                        data := some (get_attributes inst) } }), none) := by
  rw [post_save_reg_created registered callbacks
    (post_init_callback registered snapshots sender inst) sender inst hreg]
  have he : (get_attributes inst).isEmpty = false := by
    cases hga : get_attributes inst with
    | nil => exact absurd hga hne
    | cons a l => rfl
  simp [publish, he]

/-- Witness for C3 at a concrete instance with one whitelisted attribute. -/
theorem post_save_create_full_data_witness :
    post_save_callback [1] ([4] : List Nat)
        (post_init_callback [1] ([] : Dict Nat (Dict String Int)) 1
          ⟨[("a", 2)], ["a"], some 5, 3⟩) 1 ⟨[("a", 2)], ["a"], some 5, 3⟩
        true =
      (dictSet (post_init_callback [1] ([] : Dict Nat (Dict String Int)) 1
          ⟨[("a", 2)], ["a"], some 5, 3⟩) 3
        (get_attributes ⟨[("a", 2)], ["a"], some 5, 3⟩),
       [4].map (fun cb =>
         { cb := cb, model_class := 1, event := "create",
           payload := { id := some 5,
                        data := some (get_attributes
                          (⟨[("a", 2)], ["a"], some 5, 3⟩ :
                            Instance Int)) } }), none) :=
  post_save_create_full_data [1] [4] [] 1 ⟨[("a", 2)], ["a"], some 5, 3⟩
    (by decide) (by decide)

/-- C4 counterexample: a registered instance with a stored snapshot (the
empty dict) and trivially no changed attribute value, for which the
non-created persist raises and performs no invocation at all, against the
claim that an update event carrying the identifier and no data field is
published whenever a stored snapshot exists and nothing changed. -/
theorem post_save_noop_update_counterexample :
    dictLookup [(6, ([] : Dict String Int))] 6 = some [] ∧
    get_attributes (⟨[], ["z"], some 2, 6⟩ : Instance Int) = [] ∧
    (post_save_callback [1] ([3] : List Nat) [(6, ([] : Dict String Int))] 1
        ⟨[], ["z"], some 2, 6⟩ false).2.1 = [] ∧
    (post_save_callback [1] ([3] : List Nat) [(6, ([] : Dict String Int))] 1
        ⟨[], ["z"], some 2, 6⟩ false).2.2.isSome = true := by
  decide

/-- C4 (amended): a persist of a registered instance whose stored snapshot
is non-empty and agrees with every current attribute value publishes an
update invocation to every callback whose payload carries the id entry and
no data entry at all: the empty delta is dropped by publish, not replaced by
an empty mapping (with an empty stored snapshot the hook raises instead and
publishes nothing). -/
theorem post_save_noop_update [DecidableEq M] [DecidableEq V]
    (registered : List M) (callbacks : List C)
    (snapshots : Dict Nat (Dict String V)) (sender : M) (inst : Instance V)
    (previous : Dict String V) (hreg : sender ∈ registered)
    (hprev : dictLookup snapshots inst.addr = some previous)
    (hne : previous ≠ [])
    (hsame : ∀ p ∈ get_attributes inst, dictLookup previous p.1 = some p.2) :
    post_save_callback registered callbacks snapshots sender inst false =
      (dictSet snapshots inst.addr (get_attributes inst),
       callbacks.map (fun cb =>
         { cb := cb, model_class := sender, event := "update",
           payload := { id := inst.pk, data := none } }), none) := by
  rw [post_save_reg_notcreated_some registered callbacks snapshots sender
    inst previous hreg hprev]
  have he : previous.isEmpty = false := by
    cases previous with
    | nil => exact absurd rfl hne
    | cons a l => rfl
  rw [if_neg (by simp [he])]
  simp only [delta_eq_nil (get_attributes inst) previous hsame]
  simp [publish]

/-- Witness for C4 at a concrete unchanged instance. -/
theorem post_save_noop_update_witness :
    post_save_callback [0] ([7] : List Nat) [(4, [("s", (1 : Int))])] 0
        ⟨[("s", 1)], ["s"], some 9, 4⟩ false =
      (dictSet [(4, [("s", 1)])] 4
        (get_attributes ⟨[("s", 1)], ["s"], some 9, 4⟩),
       [7].map (fun cb =>
         { cb := cb, model_class := 0, event := "update",
           payload := { id := some 9, data := none } }), none) :=
  post_save_noop_update [0] [7] [(4, [("s", 1)])] 0
    ⟨[("s", 1)], ["s"], some 9, 4⟩ [("s", 1)] (by decide) (by decide)
    (by decide) (by decide)

/-- C5: for a registered sender the create path never raises, and every
persist that returns normally (create or update, changed or not) leaves the
snapshot store holding the current whitelisted attributes under the instance
address. -/
theorem post_save_stores_current [DecidableEq M] [DecidableEq V]
    (registered : List M) (callbacks : List C)
    (snapshots : Dict Nat (Dict String V)) (sender : M) (inst : Instance V)
    (created : Bool) (hreg : sender ∈ registered) :
    (created = true →
      (post_save_callback registered callbacks snapshots sender inst
        created).2.2 = none) ∧
    ((post_save_callback registered callbacks snapshots sender inst
        created).2.2 = none →
      dictLookup (post_save_callback registered callbacks snapshots sender
        inst created).1 inst.addr = some (get_attributes inst)) := by
  cases created with
  | true =>
      rw [post_save_reg_created registered callbacks snapshots sender inst
        hreg]
      exact ⟨fun _ => rfl, fun _ => dictLookup_dictSet_self _ _ _⟩
  | false =>
      constructor
      · intro h
        exact Bool.noConfusion h
      intro hok
      cases hl : dictLookup snapshots inst.addr with
      | none =>
          rw [post_save_reg_notcreated_none registered callbacks snapshots
            sender inst hreg hl] at hok
          simp at hok
      | some previous =>
          rw [post_save_reg_notcreated_some registered callbacks snapshots
            sender inst previous hreg hl] at hok ⊢
          by_cases he : previous.isEmpty
          · rw [if_pos he] at hok
            simp at hok
          · rw [if_neg he] at hok ⊢
            cases hd : delta (get_attributes inst) previous with
            | error e =>
                simp [hd] at hok
            | ok d =>
                simp only [hd]
                exact dictLookup_dictSet_self _ _ _

/-- Witness for C5 at a concrete created persist. -/
theorem post_save_stores_current_witness :
    ((post_save_callback [6] ([2] : List Nat)
        ([] : Dict Nat (Dict String Int)) 6 ⟨[("t", 5)], ["t"], some 1, 9⟩
        true).2.2 = none) ∧
    dictLookup (post_save_callback [6] ([2] : List Nat)
        ([] : Dict Nat (Dict String Int)) 6 ⟨[("t", 5)], ["t"], some 1, 9⟩
        true).1 9 =
      some (get_attributes ⟨[("t", 5)], ["t"], some 1, 9⟩) :=
  ⟨(post_save_stores_current [6] [2] [] 6 ⟨[("t", 5)], ["t"], some 1, 9⟩
      true (by decide)).1 rfl,
   (post_save_stores_current [6] [2] [] 6 ⟨[("t", 5)], ["t"], some 1, 9⟩
      true (by decide)).2 (by decide)⟩

/-- Witness for C10 at a concrete erroring persist (no stored snapshot). -/
theorem post_save_error_atomic_witness :
    (post_save_callback [2] ([8] : List Nat)
      ([] : Dict Nat (Dict String Int)) 2 ⟨[("a", 1)], ["a"], some 1, 3⟩
      false).1 = [] ∧
    (post_save_callback [2] ([8] : List Nat)
      ([] : Dict Nat (Dict String Int)) 2 ⟨[("a", 1)], ["a"], some 1, 3⟩
      false).2.1 = [] :=
  post_save_error_atomic [2] [8] [] 2 ⟨[("a", 1)], ["a"], some 1, 3⟩ false
    (by decide)

end Subtp
